import Mathlib

set_option maxRecDepth 8192

/-!
Verification development for the NetPeek scanner module (`src/scanner.py`).

The module is shallowly embedded: the textual range parser and validator
(`parse_ip_range`, `validate_ip_range`), the per-host prober
(`is_port_open`, `scan_single_ip`) and the scan coordinator
(`scan_network`, `stop_scan`, `get_partial_results`) are translated into
executable Lean definitions.  IPv4 addresses are natural numbers below
2^32; the relevant behaviour of Python's `ipaddress` library
(`IPv4Address`, `ip_network(strict=False)`, `hosts()`) and of `int()` on
strings is reproduced for the IPv4 forms the program handles.  Python
strings are handled as their character sequences (`List Char`), with
structural re-implementations of `split`, `rsplit`, `strip`, `join` and
`str(int)` so that every definition evaluates inside the kernel.
Network I/O (TCP connects, ICMP echo, reverse DNS) is an explicit
environment record of oracles, with `Option` results standing for raised
exceptions; threading is modelled as an interleaving of atomic worker
steps chosen by an explicit schedule.
-/

instance {ε α : Type} [DecidableEq ε] [DecidableEq α] : DecidableEq (Except ε α) :=
  fun x y =>
    match x, y with
    | .ok a, .ok b =>
      if h : a = b then isTrue (by rw [h]) else isFalse (fun hc => by cases hc; exact h rfl)
    | .ok _, .error _ => isFalse (fun hc => by cases hc)
    | .error _, .ok _ => isFalse (fun hc => by cases hc)
    | .error a, .error b =>
      if h : a = b then isTrue (by rw [h]) else isFalse (fun hc => by cases hc; exact h rfl)

/-- Python `s.split(sep)` for a one-character separator. -/
def splitChar (sep : Char) : List Char → List (List Char)
  | [] => [[]]
  | c :: rest =>
    if c == sep then [] :: splitChar sep rest
    else
      match splitChar sep rest with
      | [] => [[c]]
      | h :: t => (c :: h) :: t

/-- Python `sep.join(parts)`. -/
def joinChars (sep : List Char) : List (List Char) → List Char
  | [] => []
  | [x] => x
  | x :: y :: t => x ++ sep ++ joinChars sep (y :: t)

/-- The whitespace characters Python's `str.strip()` removes (the ASCII
ones; `int()` accepts a surrounded literal). -/
def isPySpace (c : Char) : Bool :=
  c == ' ' || c == '\t' || c == '\n' || c == '\r' || c == '\x0b' || c == '\x0c'

/-- Python `s.strip()`. -/
def stripChars (cs : List Char) : List Char :=
  ((cs.dropWhile isPySpace).reverse.dropWhile isPySpace).reverse

/-- ASCII decimal digit test, as used by Python's octet and integer
parsing (`str.isdigit` restricted to ASCII). -/
def isPyDigit (c : Char) : Bool := '0' ≤ c && c ≤ '9'

/-- Value of a decimal digit string, skipping the underscore separators
Python's `int()` permits between digits. -/
def digitsToNat (cs : List Char) : Nat :=
  cs.foldl (fun a c => if c == '_' then a else a * 10 + (c.toNat - '0'.toNat)) 0

/-- Acceptor for Python's decimal integer body: one or more ASCII digits
with single underscores allowed only between digits. -/
def pyDigitsCore : List Char → Bool
  | [] => false
  | [c] => isPyDigit c
  | c :: '_' :: rest => isPyDigit c && pyDigitsCore rest
  | c :: rest => isPyDigit c && pyDigitsCore rest

/-- Python's `int(s)` for a decimal string literal: surrounding
whitespace stripped, an optional sign, then digits (with underscore
separators).  `none` models a raised `ValueError`. -/
def pyInt (s : List Char) : Option Int :=
  match stripChars s with
  | '+' :: rest => if pyDigitsCore rest then some (digitsToNat rest) else none
  | '-' :: rest => if pyDigitsCore rest then some (-(digitsToNat rest : Int)) else none
  | cs => if pyDigitsCore cs then some (digitsToNat cs) else none

/-- Python `str(n)` for a natural number, via an explicit fuel argument
(the fuel `n + 1` always suffices since a number needs at most as many
decimal digits as its value has predecessors). -/
def natToCharsAux : Nat → Nat → List Char → List Char
  | 0, _, acc => acc
  | fuel + 1, n, acc =>
    let d := Char.ofNat (48 + n % 10)
    if n < 10 then d :: acc
    else natToCharsAux fuel (n / 10) (d :: acc)

/-- Python `str(n)` for a natural number. -/
def natToChars (n : Nat) : List Char := natToCharsAux (n + 1) n []

/-- Python `str(i)` for an integer. -/
def intToChars (i : Int) : List Char :=
  if i < 0 then '-' :: natToChars (-i).toNat else natToChars i.toNat

/-- One dotted-quad octet, per `ipaddress.IPv4Address._parse_octet`:
non-empty, ASCII digits only, at most 3 characters, no leading zero
(unless the octet is exactly "0"), and value at most 255. -/
def parseOctet (cs : List Char) : Option Nat :=
  if cs.isEmpty then none
  else if !cs.all isPyDigit then none
  else if cs.length > 3 then none
  else if cs.headD '1' == '0' && cs.length != 1 then none
  else
    let v := digitsToNat cs
    if v ≤ 255 then some v else none

/-- `ipaddress.IPv4Address(s)`: exactly four octets separated by dots.
The result is the 32-bit numeric value of the address.  `none` models a
raised `AddressValueError`. -/
def parseIPv4 (cs : List Char) : Option Nat :=
  match splitChar '.' cs with
  | [a, b, c, d] =>
    match parseOctet a, parseOctet b, parseOctet c, parseOctet d with
    | some x, some y, some z, some w => some (((x * 256 + y) * 256 + z) * 256 + w)
    | _, _, _, _ => none
  | _ => none

/-- Recover a prefix length from a dotted netmask value (the mask must be
`p` one-bits followed by zeroes), per `_prefix_from_ip_int`. -/
def prefixLenOfMask (m : Nat) : Option Nat :=
  (List.range 33).find? (fun p => m == 2 ^ 32 - 2 ^ (32 - p))

/-- The prefix part of a CIDR expression, per `IPv4Network._make_netmask`:
either a plain decimal prefix length at most 32, or a dotted-quad
netmask or hostmask. -/
def parsePrefixLen (cs : List Char) : Option Nat :=
  if !cs.isEmpty && cs.all isPyDigit && digitsToNat cs ≤ 32 then
    some (digitsToNat cs)
  else
    match parseIPv4 cs with
    | some m =>
      match prefixLenOfMask m with
      | some p => some p
      | none => prefixLenOfMask (2 ^ 32 - 1 - m)
    | none => none

/-- `ipaddress.ip_network(s, strict=False)` for the IPv4 forms the
program handles: at most one slash; with `strict=False` the host bits of
the given address are masked away.  The result is the pair of the
network address and the prefix length. -/
def parseNetwork (s : String) : Option (Nat × Nat) :=
  match splitChar '/' s.data with
  | [a] => (parseIPv4 a).map (fun ip => (ip, 32))
  | [a, p] =>
    match parseIPv4 a, parsePrefixLen p with
    | some ip, some pl => some (ip - ip % 2 ^ (32 - pl), pl)
    | _, _ => none
  | _ => none

/-- `IPv4Network.hosts()`: the usable host addresses, i.e. everything
strictly between the network and broadcast addresses — except that the
library special-cases /31 (both addresses) and /32 (the single
address). -/
def netHosts (net pl : Nat) : List Nat :=
  if pl = 32 then [net]
  else if pl = 31 then [net, net + 1]
  else (List.range (2 ^ (32 - pl) - 2)).map (fun i => net + 1 + i)

/-- Build `IPv4Address(f"{base_network}.{i}")` for every index, failing
as soon as one constructed address is invalid (the comprehension's
raised `AddressValueError`). -/
def parseAll (base_network : List Char) : List Int → Option (List Nat)
  | [] => some []
  | i :: t =>
    match parseIPv4 (base_network ++ '.' :: intToChars i), parseAll base_network t with
    | some v, some vs => some (v :: vs)
    | _, _ => none

/-- The list comprehension of `parse_ip_range`'s bounded-suffix branch:
`[IPv4Address(f"{base_network}.{i}") for i in range(start_ip, end_ip + 1)]`.
An invalid constructed address raises (modelled by `.error`); an empty
Python `range` yields the empty list. -/
def suffixHosts (base_network : List Char) (start_ip end_ip : Int) :
    Except String (List Nat) :=
  let idxs := (List.range (end_ip + 1 - start_ip).toNat).map (fun (k : Nat) => start_ip + (k : Int))
  match parseAll base_network idxs with
  | some hs => .ok hs
  | none => .error "does not appear to be an IPv4 address"

/-- `NetworkScanner.parse_ip_range` (scanner.py lines 121-147): CIDR if
the expression contains a slash, bounded suffix range if it contains a
dash (split at the last dash, base of 4 or 3 dotted parts), otherwise a
single literal address.  `.error` models a raised exception. -/
def parse_ip_range (ip_range : String) : Except String (List Nat) :=
  if ip_range.data.contains '/' then
    match parseNetwork ip_range with
    | some (net, pl) => .ok (netHosts net pl)
    | none => .error "does not appear to be an IPv4 or IPv6 network"
  else if ip_range.data.contains '-' then
    let parts := splitChar '-' ip_range.data
    let base_ip := joinChars ['-'] parts.dropLast
    let range_part := parts.getLastD []
    let base_parts := splitChar '.' base_ip
    if base_parts.length = 4 then
      match pyInt (base_parts.getD 3 []), pyInt range_part with
      | some st, some en => suffixHosts (joinChars ['.'] (base_parts.take 3)) st en
      | _, _ => .error "invalid literal for int with base 10"
    else if base_parts.length = 3 then
      match pyInt range_part with
      | some en => suffixHosts base_ip 1 en
      | none => .error "invalid literal for int with base 10"
    else .error "Invalid range format!"
  else
    match parseIPv4 ip_range.data with
    | some ip => .ok [ip]
    | none => .error "does not appear to be an IPv4 address"

/-- The body of `validate_ip_range`'s `try` block: the same grammar
dispatch as `parse_ip_range`, but the suffix-range branches only check
the base address (`IPv4Address(base_ip)` resp. `IPv4Address(base_ip + ".1")`)
and the integer syntax of the bound, without materializing the hosts. -/
def validateCheck (ip_range : String) : Except String Unit :=
  if ip_range.data.contains '/' then
    match parseNetwork ip_range with
    | some _ => .ok ()
    | none => .error "does not appear to be an IPv4 or IPv6 network"
  else if ip_range.data.contains '-' then
    let parts := splitChar '-' ip_range.data
    let base_ip := joinChars ['-'] parts.dropLast
    let range_part := parts.getLastD []
    let base_parts := splitChar '.' base_ip
    if base_parts.length = 4 then
      match parseIPv4 base_ip, pyInt range_part with
      | some _, some _ => .ok ()
      | _, _ => .error "invalid base address or bound"
    else if base_parts.length = 3 then
      match parseIPv4 (base_ip ++ ['.', '1']), pyInt range_part with
      | some _, some _ => .ok ()
      | _, _ => .error "invalid base address or bound"
    else .error "Invalid range format!"
  else
    match parseIPv4 ip_range.data with
    | some _ => .ok ()
    | none => .error "does not appear to be an IPv4 address"

/-- `NetworkScanner.validate_ip_range` (scanner.py lines 37-62): empty
input is rejected up front; otherwise the grammar check runs and any
exception is turned into a `(False, "Invalid IP range: " + str(e))`
result. -/
def validate_ip_range (ip_range : String) : Bool × String :=
  if ip_range = "" then (false, "Please enter an IP range")
  else
    match validateCheck ip_range with
    | .ok _ => (true, "Valid IP range")
    | .error e => (false, "Invalid IP range: " ++ e)

/-- Whether an `Except` computation succeeded (Python: the call returned
instead of raising). -/
def exOk {ε α : Type} : Except ε α → Bool
  | .ok _ => true
  | .error _ => false

example : parse_ip_range "192.168.1.10-20" =
    .ok [3232235786, 3232235787, 3232235788, 3232235789, 3232235790,
         3232235791, 3232235792, 3232235793, 3232235794, 3232235795,
         3232235796] := by decide

example : parse_ip_range "192.168.1-5" =
    .ok [3232235777, 3232235778, 3232235779, 3232235780, 3232235781] := by decide

example : parse_ip_range "192.168.1.20-10" = .ok [] := by decide

example : validate_ip_range "10.0.0.0/24" = (true, "Valid IP range") := by decide

example : parseNetwork "10.0.0.0/31" = some (167772160, 31) := by decide

example : parse_ip_range "10.0.0.0/31" = .ok [167772160, 167772161] := by decide

example : (validate_ip_range "192.168.1.010-20").1 = false := by decide

example : exOk (parse_ip_range "192.168.1.010-20") = true := by decide

example : validate_ip_range "" = (false, "Please enter an IP range") := by decide

/-- A discovered device, as built by `scan_single_ip`: resolved (or
fallback) hostname, the address (kept numeric here; the code stores the
dotted string and sorts by its parsed numeric value, which round-trips),
and the display string for the open ports. -/
structure Device where
  hostname : String
  ip : Nat
  ports : String
deriving Repr, DecidableEq

/-- The network environment the prober runs against.  Each primitive
returns `none` to model a raised exception: `connect_ex` is
`socket.connect_ex` under the 0.5 s timeout of `is_port_open`,
`connect80` the 0.1 s fallback connect to port 80, `ping` the ICMP echo
(its `Bool` is the truthiness of `ping3.ping`'s result), and
`gethostbyaddr` the reverse-DNS lookup. -/
structure Net where
  connect_ex : Nat → Nat → Option Int
  connect80 : Nat → Option Int
  ping : Nat → Option Bool
  gethostbyaddr : Nat → Option String

/-- `self.common_ports` (scanner.py line 31): the fixed probe list, in
its source order (which is not numeric order). -/
def common_ports : List Nat := [22, 80, 443, 3389, 53, 21, 23, 8080, 8443, 8006, 5000]

/-- `NetworkScanner.is_port_open` (scanner.py lines 64-70): a port is
open iff `connect_ex` returns 0; any exception degrades to `False`. -/
def is_port_open (net : Net) (ip port : Nat) : Bool :=
  match net.connect_ex ip port with
  | some r => r == 0
  | none => false

/-- The `open_ports` accumulated by `scan_single_ip`'s port loop: the
common ports that accept a connection, in `common_ports` order. -/
def openPortsOf (net : Net) (ip : Nat) : List Nat :=
  common_ports.filter (fun p => is_port_open net ip p)

/-- The fallback liveness block of `scan_single_ip` (lines 87-96): a
short connect to port 80, then an ICMP echo; an exception anywhere in
the `try` leaves the host not alive. -/
def fallbackAlive (net : Net) (ip : Nat) : Bool :=
  match net.connect80 ip with
  | none => false
  | some r =>
    if r == 0 then true
    else
      match net.ping ip with
      | none => false
      | some b => b

/-- Python `str(ip)` for a numeric IPv4 address: the dotted quad. -/
def ipChars (ip : Nat) : List Char :=
  natToChars (ip / 2 ^ 24 % 256) ++ '.' :: natToChars (ip / 2 ^ 16 % 256) ++
    '.' :: natToChars (ip / 2 ^ 8 % 256) ++ '.' :: natToChars (ip % 256)

/-- Python `str(ip)` as a Lean string. -/
def ipString (ip : Nat) : String := ⟨ipChars ip⟩

/-- The `ports` field of a Device (line 108): the comma-joined open
ports, or the sentinel text when the host is alive without open ports. -/
def portsString (open_ports : List Nat) : String :=
  if open_ports.isEmpty then "Host alive (no open ports detected)"
  else ⟨joinChars [',', ' '] (open_ports.map natToChars)⟩

/-- The result of one uninterrupted run of `scan_single_ip`'s probe part
on a live flag: `some` device exactly when the host is determined alive
(lines 77-109); reverse-DNS failure falls back to the ip literal. -/
def probeDevice (net : Net) (ip : Nat) : Option Device :=
  let op := openPortsOf net ip
  let alive := !op.isEmpty || fallbackAlive net ip
  if alive then
    some { hostname := (net.gethostbyaddr ip).getD (ipString ip)
           ip := ip
           ports := portsString op }
  else none

/-- The ordering the coordinator sorts delivered device lists by:
`key=lambda x: ipaddress.IPv4Address(x['ip'])`, i.e. the numeric
address. -/
def devLE (a b : Device) : Prop := a.ip ≤ b.ip

instance : DecidableRel devLE := fun a b => Nat.decLe a.ip b.ip

instance : IsTotal Device devLE := ⟨fun a b => Nat.le_total a.ip b.ip⟩

instance : IsTrans Device devLE := ⟨fun _ _ _ h1 h2 => Nat.le_trans h1 h2⟩

/-- Python `sorted(devices, key=...)`: a stable sort by numeric IP. -/
def sortDevices (l : List Device) : List Device := List.insertionSort devLE l

/-- The scanner's mutable state together with the per-scan locals of
`do_scan` (`devices`, the not-yet-completed host queue) and logs of the
callback invocations the scan dispatches (progress, completion, error).
The logs record what the supplied callbacks would receive, in dispatch
order. -/
structure SysState where
  is_scanning : Bool
  hosts_scanned : Nat
  total_hosts : Nat
  partial_results : List Device
  devices : List Device
  remaining : List Nat
  progressEvents : List (Nat × Nat)
  completionEvents : List (List Device)
  errorEvents : List String
deriving Repr, DecidableEq

/-- A fresh `NetworkScanner` (scanner.py lines 30-35). -/
def initState : SysState :=
  { is_scanning := false, hosts_scanned := 0, total_hosts := 0, partial_results := []
    devices := [], remaining := [], progressEvents := [], completionEvents := []
    errorEvents := [] }

/-- `NetworkScanner.stop_scan` (lines 199-201): clear the running flag,
touch nothing else. -/
def stop_scan (s : SysState) : SysState := { s with is_scanning := false }

/-- `NetworkScanner.get_partial_results` (lines 203-205): a snapshot of
the accumulator, sorted by numeric IP. -/
def get_partial_results (s : SysState) : List Device :=
  sortDevices s.partial_results

/-- One complete run of `scan_single_ip` (lines 72-119), atomic at the
granularity of the running-flag checkpoints: if the flag is already
cleared the worker returns without touching anything (in particular
without incrementing the progress counter); otherwise it probes, appends
any discovered device to both the local list and the partial-results
accumulator under the lock, and unconditionally increments the counter
and dispatches a progress callback. -/
def scan_single_ip (net : Net) (ip : Nat) (s : SysState) : SysState :=
  if !s.is_scanning then s
  else
    match probeDevice net ip with
    | some d =>
      { s with devices := s.devices ++ [d]
               partial_results := s.partial_results ++ [d]
               hosts_scanned := s.hosts_scanned + 1
               progressEvents := s.progressEvents ++ [(s.hosts_scanned + 1, s.total_hosts)] }
    | none =>
      { s with hosts_scanned := s.hosts_scanned + 1
               progressEvents := s.progressEvents ++ [(s.hosts_scanned + 1, s.total_hosts)] }

/-- One scheduler decision while the worker pool drains: either some
pending worker task `i` runs to completion, or `stop_scan` is called
from outside. -/
inductive Step where
  | run (i : Nat)
  | stop
deriving Repr, DecidableEq

/-- Execute one scheduled step: `run i` removes the i-th not-yet-finished
task from the queue and runs it (a no-op beyond the bookkeeping when the
flag is already cleared), `stop` is an external `stop_scan` call. -/
def execStep (net : Net) (s : SysState) : Step → SysState
  | .stop => stop_scan s
  | .run i =>
    match s.remaining[i]? with
    | none => s
    | some ip => scan_single_ip net ip { s with remaining := s.remaining.eraseIdx i }

/-- Run a whole schedule of interleaved worker completions and stop
requests. -/
def execSteps (net : Net) (sched : List Step) (s : SysState) : SysState :=
  sched.foldl (execStep net) s

/-- `NetworkScanner.scan_network` (lines 149-197) at the atomic-step
granularity: a no-op if a scan is already running; otherwise set the
flag, clear the per-scan state, parse the range (an exception clears the
flag and dispatches the error callback; no workers are spawned), record
the initial progress callback, let the scheduled interleaving of worker
completions and stop requests play out, and — only if the flag is still
set — clear it and dispatch the completion callback with the devices
sorted by numeric IP. -/
def scan_network (net : Net) (ip_range : String) (sched : List Step) (s : SysState) :
    SysState :=
  if s.is_scanning then s
  else
    let s0 := { s with is_scanning := true, partial_results := [], hosts_scanned := 0
                       devices := [] }
    match parse_ip_range ip_range with
    | .error e =>
      { s0 with is_scanning := false
                errorEvents := s0.errorEvents ++ ["Scan failed: " ++ e] }
    | .ok hosts =>
      let s1 := { s0 with total_hosts := hosts.length
                          progressEvents := s0.progressEvents ++ [(0, hosts.length)]
                          remaining := hosts }
      let s2 := execSteps net sched s1
      if s2.is_scanning then
        { s2 with is_scanning := false
                  completionEvents := s2.completionEvents ++ [sortDevices s2.devices] }
      else s2

/-- An environment in which every network primitive raises. -/
def netDark : Net :=
  { connect_ex := fun _ _ => none, connect80 := fun _ => none
    ping := fun _ => none, gethostbyaddr := fun _ => none }

/-- An environment in which every TCP connect succeeds and reverse DNS
raises. -/
def netAllOpen : Net :=
  { connect_ex := fun _ _ => some 0, connect80 := fun _ => some 0
    ping := fun _ => some true, gethostbyaddr := fun _ => none }

example : openPortsOf netAllOpen 5 = common_ports := by decide

example : probeDevice netDark 16909060 = none := by decide

example :
    (scan_network netDark "10.0.0.1-3" [.run 0, .run 0, .run 0] initState).progressEvents
      = [(0, 3), (1, 3), (2, 3), (3, 3)] := by decide

example :
    (scan_network netDark "10.0.0.1-3" [.run 0, .run 0, .run 0] initState).completionEvents
      = [[]] := by decide

example :
    (scan_network netAllOpen "10.0.0.1-2" [.run 1, .run 0] initState).completionEvents
      = [[{ hostname := "10.0.0.1", ip := 167772161
            ports := "22, 80, 443, 3389, 53, 21, 23, 8080, 8443, 8006, 5000" },
          { hostname := "10.0.0.2", ip := 167772162
            ports := "22, 80, 443, 3389, 53, 21, 23, 8080, 8443, 8006, 5000" }]] := by decide

example :
    get_partial_results (scan_network netAllOpen "10.0.0.1-2" [.stop, .run 0, .run 1] initState)
      = [] := by decide

/-! ### Supporting lemmas about the range parser -/

/-- The three leading octets `192.168.1`, as character data. -/
def base192 : List Char := ['1', '9', '2', '.', '1', '6', '8', '.', '1']

theorem parseIPv4_base192 : ∀ n : Nat, n < 256 →
    parseIPv4 (base192 ++ '.' :: natToChars n) = some (3232235776 + n) := by decide

theorem intToChars_natCast (n : Nat) : intToChars (n : Int) = natToChars n := by
  simp [intToChars]

theorem parseAll_ok (bn : List Char) (g : Int → Nat) :
    ∀ l : List Int, (∀ i ∈ l, parseIPv4 (bn ++ '.' :: intToChars i) = some (g i)) →
      parseAll bn l = some (l.map g)
  | [], _ => rfl
  | i :: t, h => by
    have hi := h i (List.mem_cons_self i t)
    have ht := parseAll_ok bn g t (fun j hj => h j (List.mem_cons_of_mem i hj))
    simp [parseAll, hi, ht]

theorem suffixHosts_of_lt (bn : List Char) (st en : Int) (h : en < st) :
    suffixHosts bn st en = .ok [] := by
  have h0 : en + 1 - st ≤ 0 := by omega
  simp [suffixHosts, Int.toNat_of_nonpos h0, parseAll]

theorem suffixHosts_base192 (st en : Nat) (hst : st ≤ 255) (hen : en ≤ 255) :
    suffixHosts base192 st en =
      .ok ((List.range (en + 1 - st)).map (fun k => 3232235776 + st + k)) := by
  have hidx : ((en : Int) + 1 - st).toNat = en + 1 - st := by omega
  simp only [suffixHosts]
  rw [hidx]
  rw [parseAll_ok _ (fun i => 3232235776 + i.toNat)]
  · dsimp only
    congr 1
    rw [List.map_map]
    apply List.map_congr_left
    intro k hk
    have hcast : ((st : Int) + k).toNat = st + k := by omega
    simp only [Function.comp_apply, hcast]
    omega
  · intro i hi
    rcases List.mem_map.mp hi with ⟨k, hk, rfl⟩
    have hklt := List.mem_range.mp hk
    have hcast : ((st : Int) + k) = ((st + k : Nat) : Int) := by push_cast; ring
    rw [hcast, intToChars_natCast]
    rw [parseIPv4_base192 (st + k) (by omega)]
    congr 1

/-- Any prefix length `ip_network` accepts is at most 32. -/
theorem parsePrefixLen_le (cs : List Char) (p : Nat) (h : parsePrefixLen cs = some p) :
    p ≤ 32 := by
  unfold parsePrefixLen at h
  split at h
  · rename_i hg
    simp only [Bool.and_eq_true, decide_eq_true_eq] at hg
    cases h
    exact hg.2
  · split at h
    · split at h
      · rename_i hf
        cases h
        have hm := List.mem_range.mp (List.mem_of_find?_eq_some hf)
        omega
      · have hm := List.mem_range.mp (List.mem_of_find?_eq_some h)
        omega
    · cases h

theorem parseNetwork_pl_le (s : String) (net pl : Nat)
    (h : parseNetwork s = some (net, pl)) : pl ≤ 32 := by
  unfold parseNetwork at h
  split at h
  · simp only [Option.map_eq_some'] at h
    rcases h with ⟨ip, -, heq⟩
    cases heq
    omega
  · split at h
    · simp only [Option.some_inj, Prod.mk.injEq] at h
      rw [← h.2]
      exact parsePrefixLen_le _ _ (by assumption)
    · cases h
  · cases h

theorem netHosts_pairwise (net pl : Nat) : (netHosts net pl).Pairwise (· < ·) := by
  unfold netHosts
  split
  · simp
  · split
    · simp
    · refine List.Pairwise.map _ (fun a b hab => ?_) (List.pairwise_lt_range _)
      omega

theorem netHosts_ne_nil (net pl : Nat) (hpl : pl ≤ 32) : netHosts net pl ≠ [] := by
  unfold netHosts
  split
  · simp
  · split
    · simp
    · rename_i h32 h31
      have hple : pl ≤ 30 := by omega
      have h4 : 4 ≤ 2 ^ (32 - pl) := by
        calc 4 = 2 ^ 2 := by norm_num
        _ ≤ 2 ^ (32 - pl) := Nat.pow_le_pow_right (by norm_num) (by omega)
      simp only [ne_eq, List.map_eq_nil_iff, List.range_eq_nil]
      omega

theorem netHosts_nodup (net pl : Nat) : (netHosts net pl).Nodup :=
  (netHosts_pairwise net pl).imp Nat.ne_of_lt

theorem netHosts_mem (net pl : Nat) (hpl : pl ≤ 30) (x : Nat) :
    x ∈ netHosts net pl ↔ net < x ∧ x < net + (2 ^ (32 - pl) - 1) := by
  have h4 : 4 ≤ 2 ^ (32 - pl) := by
    calc 4 = 2 ^ 2 := by norm_num
    _ ≤ 2 ^ (32 - pl) := Nat.pow_le_pow_right (by norm_num) (by omega)
  unfold netHosts
  rw [if_neg (by omega), if_neg (by omega)]
  simp only [List.mem_map, List.mem_range]
  constructor
  · rintro ⟨i, hi, rfl⟩
    omega
  · rintro ⟨h1, h2⟩
    exact ⟨x - net - 1, by omega, by omega⟩

/-! ### Claim C1 — bounded suffix ranges -/

/-- Claim C1, counterexample.  The claim asserts that `parse` fails with
an error when the end-bound is less than the start; on the concrete
input `192.168.1.20-10` the code instead returns normally, with an empty
host list (the Python `range(20, 11)` is empty, so no address is ever
constructed and nothing raises). -/
theorem claim_C1_counterexample : parse_ip_range "192.168.1.20-10" = .ok [] := by decide

/-- Claim C1, amended.  For a bounded suffix range expression, parse
returns, for a 4-octet base, the sequence from the base's last octet
through the end-bound inclusive with the first three octets held fixed
(e.g. `192.168.1.10-20` yields the 11 addresses `192.168.1.10` through
`192.168.1.20`; in general, for base `192.168.1` and in-range bounds
`st`, `en`, the addresses `192.168.1.st .. 192.168.1.en`), and for a
3-octet base the sequence from 1 through the end-bound as the appended
4th octet (e.g. `192.168.1-5` yields `192.168.1.1` through
`192.168.1.5`); parse fails with an error when the end-bound is at least
the start and an endpoint lies outside 0-255, but when the end-bound is
less than the start it does not fail: it returns the empty host list. -/
theorem claim_C1 :
    parse_ip_range "192.168.1.10-20" =
      .ok [3232235786, 3232235787, 3232235788, 3232235789, 3232235790,
           3232235791, 3232235792, 3232235793, 3232235794, 3232235795,
           3232235796] ∧
    parse_ip_range "192.168.1-5" =
      .ok [3232235777, 3232235778, 3232235779, 3232235780, 3232235781] ∧
    (∀ st en : Nat, st ≤ 255 → en ≤ 255 →
      suffixHosts base192 st en =
        .ok ((List.range (en + 1 - st)).map (fun k => 3232235776 + st + k))) ∧
    (∀ (bn : List Char) (st en : Int), en < st → suffixHosts bn st en = .ok []) ∧
    exOk (parse_ip_range "192.168.1.10-300") = false ∧
    exOk (parse_ip_range "192.168.1.300-310") = false ∧
    exOk (parse_ip_range "192.168.1-300") = false := by
  refine ⟨by decide, by decide, suffixHosts_base192, suffixHosts_of_lt, by decide,
    by decide, by decide⟩

/-- Claim C1, witness: the quantified parts of `claim_C1` at concrete
inputs — the in-range enumeration at bounds 10 and 20, and the empty
result at reversed bounds 20 and 10. -/
theorem claim_C1_witness :
    ((10 : Nat) ≤ 255 ∧ (20 : Nat) ≤ 255 ∧
      suffixHosts base192 10 20 =
        .ok ((List.range (20 + 1 - 10)).map (fun k => 3232235776 + 10 + k))) ∧
    ((10 : Int) < 20 ∧ suffixHosts ['1'] 20 10 = .ok []) :=
  ⟨⟨by decide, by decide, claim_C1.2.2.1 10 20 (by decide) (by decide)⟩,
   ⟨by decide, claim_C1.2.2.2.1 ['1'] 20 10 (by decide)⟩⟩

/-! ### Claim C2 — validate versus parse -/

theorem stringDataAppend (a b : String) : (a ++ b).data = a.data ++ b.data := rfl

/-- Claim C2, counterexample.  Validate and parse do not agree on the
suffix-range grammar, in either direction: `192.168.1.10-300` validates
(the base address and the integer bound are well-formed) but parse
raises while constructing `192.168.1.256`; `192.168.1.010-20` fails
validation (`IPv4Address` rejects the leading zero in the octet `010`)
but parse succeeds, because it reads the last octet with `int()`, which
accepts `010` as 10. -/
theorem claim_C2_counterexample :
    ((validate_ip_range "192.168.1.10-300").1 = true ∧
      exOk (parse_ip_range "192.168.1.10-300") = false) ∧
    ((validate_ip_range "192.168.1.010-20").1 = false ∧
      exOk (parse_ip_range "192.168.1.010-20") = true) := by decide

/-- Claim C2, amended.  Validate returns ok exactly when parse succeeds
for every expression that contains a slash or contains no dash (the CIDR
and single-address grammars, and the empty string); on bounded
suffix-range expressions the two checks can disagree (see the
counterexample).  Whenever validate returns not-ok its message is
non-empty; `validate("")` is not-valid with a non-empty message and
`validate("10.0.0.0/24")` is valid. -/
theorem claim_C2 (s : String) :
    (s.data.contains '/' = true ∨ s.data.contains '-' = false →
      ((validate_ip_range s).1 = true ↔ exOk (parse_ip_range s) = true)) ∧
    ((validate_ip_range s).1 = false → (validate_ip_range s).2 ≠ "") ∧
    validate_ip_range "" = (false, "Please enter an IP range") ∧
    validate_ip_range "10.0.0.0/24" = (true, "Valid IP range") := by
  refine ⟨?_, ?_, by decide, by decide⟩
  · intro hgram
    by_cases hemp : s = ""
    · subst hemp
      rcases hgram with hg | hg
      · exact absurd hg (by decide)
      · decide
    · unfold validate_ip_range validateCheck parse_ip_range
      rw [if_neg hemp]
      by_cases hsl : s.data.contains '/'
      · have hslm : '/' ∈ s.data := by simpa using hsl
        cases hpn : parseNetwork s with
        | none => simp [exOk, hslm, hpn]
        | some v => cases v; simp [exOk, hslm, hpn]
      · have hslm : ¬ '/' ∈ s.data := by simpa using hsl
        have hda : s.data.contains '-' = false := by
          rcases hgram with hg | hg
          · exact absurd hg hsl
          · exact hg
        have hdam : ¬ '-' ∈ s.data := by simpa using hda
        cases hp4 : parseIPv4 s.data with
        | none => simp [exOk, hslm, hdam, hp4]
        | some ip => simp [exOk, hslm, hdam, hp4]
  · intro hfail
    unfold validate_ip_range at hfail ⊢
    by_cases hemp : s = ""
    · rw [if_pos hemp]
      decide
    · rw [if_neg hemp] at hfail ⊢
      revert hfail
      cases hvc : validateCheck s with
      | ok u =>
        cases u
        intro hfail
        simp at hfail
      | error e =>
        intro hfail heq
        have h1 := congrArg String.data heq
        rw [stringDataAppend] at h1
        have h0 : ("Invalid IP range: " : String).data = [] :=
          (List.append_eq_nil.mp h1).1
        exact absurd h0 (by decide)

/-- Claim C2, witness: `claim_C2` applied at the concrete CIDR
expression `10.0.0.0/24`, discharging the grammar hypothesis. -/
theorem claim_C2_witness :
    (("10.0.0.0/24" : String).data.contains '/' = true ∨
      ("10.0.0.0/24" : String).data.contains '-' = false) ∧
    ((validate_ip_range "10.0.0.0/24").1 = true ↔
      exOk (parse_ip_range "10.0.0.0/24") = true) :=
  ⟨Or.inl (by decide), (claim_C2 "10.0.0.0/24").1 (Or.inl (by decide))⟩

/-! ### Claim C3 — CIDR expressions -/

/-- Claim C3, counterexample.  For the valid CIDR expression
`10.0.0.0/31` the parsed host list is `[10.0.0.0, 10.0.0.1]` — the /31's
own network address `10.0.0.0` (= 167772160) and broadcast address
`10.0.0.1` are both included, contradicting the claimed exclusion of
network and broadcast addresses (under which the /31 host list would
also be empty rather than non-empty). -/
theorem claim_C3_counterexample :
    parseNetwork "10.0.0.0/31" = some (167772160, 31) ∧
    parse_ip_range "10.0.0.0/31" = .ok [167772160, 167772161] ∧
    167772160 ∈ [167772160, 167772161] := by decide

/-- Claim C3, amended.  For every valid CIDR expression, parse returns
exactly the network's usable host addresses in ascending numeric order,
non-empty and without duplicates — where for prefix lengths up to 30 the
usable hosts are exactly the addresses strictly between the network
address and the broadcast address, while the library special-cases /31
(both addresses of the pair, network and broadcast included) and /32
(the single address itself). -/
theorem claim_C3 (s : String) (net pl : Nat)
    (hsl : s.data.contains '/' = true)
    (hpn : parseNetwork s = some (net, pl)) :
    parse_ip_range s = .ok (netHosts net pl) ∧
    (netHosts net pl).Pairwise (· < ·) ∧
    netHosts net pl ≠ [] ∧
    (netHosts net pl).Nodup ∧
    (pl ≤ 30 → ∀ x, x ∈ netHosts net pl ↔ net < x ∧ x < net + (2 ^ (32 - pl) - 1)) ∧
    netHosts net 31 = [net, net + 1] ∧
    netHosts net 32 = [net] := by
  refine ⟨?_, netHosts_pairwise net pl, netHosts_ne_nil net pl (parseNetwork_pl_le s net pl hpn),
    netHosts_nodup net pl, fun h30 => netHosts_mem net pl h30, by simp [netHosts], by simp [netHosts]⟩
  unfold parse_ip_range
  rw [hsl]
  simp only [if_true, hpn]

/-- Claim C3, witness: `claim_C3` at the concrete expression
`10.0.0.0/24`. -/
theorem claim_C3_witness :
    ("10.0.0.0/24" : String).data.contains '/' = true ∧
    parseNetwork "10.0.0.0/24" = some (167772160, 24) ∧
    parse_ip_range "10.0.0.0/24" = .ok (netHosts 167772160 24) :=
  ⟨by decide, by decide, (claim_C3 "10.0.0.0/24" 167772160 24 (by decide) (by decide)).1⟩

/-! ### Supporting lemmas about the scan coordinator model -/

theorem probeDevice_ip (net : Net) (ip : Nat) (d : Device)
    (h : probeDevice net ip = some d) : d.ip = ip := by
  simp only [probeDevice] at h
  split at h
  · cases h
    rfl
  · cases h

theorem scan_single_ip_not_scanning (net : Net) (ip : Nat) (s : SysState)
    (h : s.is_scanning = false) : scan_single_ip net ip s = s := by
  simp [scan_single_ip, h]

theorem scan_single_ip_is_scanning (net : Net) (ip : Nat) (s : SysState) :
    (scan_single_ip net ip s).is_scanning = s.is_scanning := by
  unfold scan_single_ip
  split
  · rfl
  · cases probeDevice net ip <;> rfl

theorem scan_single_ip_total_hosts (net : Net) (ip : Nat) (s : SysState) :
    (scan_single_ip net ip s).total_hosts = s.total_hosts := by
  unfold scan_single_ip
  split
  · rfl
  · cases probeDevice net ip <;> rfl

theorem scan_single_ip_completionEvents (net : Net) (ip : Nat) (s : SysState) :
    (scan_single_ip net ip s).completionEvents = s.completionEvents := by
  unfold scan_single_ip
  split
  · rfl
  · cases probeDevice net ip <;> rfl

theorem scan_single_ip_errorEvents (net : Net) (ip : Nat) (s : SysState) :
    (scan_single_ip net ip s).errorEvents = s.errorEvents := by
  unfold scan_single_ip
  split
  · rfl
  · cases probeDevice net ip <;> rfl

theorem scan_single_ip_remaining (net : Net) (ip : Nat) (s : SysState) :
    (scan_single_ip net ip s).remaining = s.remaining := by
  unfold scan_single_ip
  split
  · rfl
  · cases probeDevice net ip <;> rfl

theorem execStep_run (net : Net) (s : SysState) (i : Nat) :
    execStep net s (.run i) =
      match s.remaining[i]? with
      | none => s
      | some ip => scan_single_ip net ip { s with remaining := s.remaining.eraseIdx i } := rfl

theorem execStep_is_scanning_run (net : Net) (s : SysState) (i : Nat) :
    (execStep net s (.run i)).is_scanning = s.is_scanning := by
  rw [execStep_run]
  cases s.remaining[i]? with
  | none => rfl
  | some ip => rw [scan_single_ip_is_scanning]

theorem execStep_total_hosts (net : Net) (s : SysState) (a : Step) :
    (execStep net s a).total_hosts = s.total_hosts := by
  cases a with
  | stop => rfl
  | run i =>
    rw [execStep_run]
    cases s.remaining[i]? with
    | none => rfl
    | some ip => rw [scan_single_ip_total_hosts]

theorem execStep_completionEvents (net : Net) (s : SysState) (a : Step) :
    (execStep net s a).completionEvents = s.completionEvents := by
  cases a with
  | stop => rfl
  | run i =>
    rw [execStep_run]
    cases s.remaining[i]? with
    | none => rfl
    | some ip => rw [scan_single_ip_completionEvents]

theorem execStep_errorEvents (net : Net) (s : SysState) (a : Step) :
    (execStep net s a).errorEvents = s.errorEvents := by
  cases a with
  | stop => rfl
  | run i =>
    rw [execStep_run]
    cases s.remaining[i]? with
    | none => rfl
    | some ip => rw [scan_single_ip_errorEvents]

theorem execSteps_completionEvents (net : Net) :
    ∀ (sched : List Step) (s : SysState),
      (execSteps net sched s).completionEvents = s.completionEvents
  | [], _ => rfl
  | a :: t, s => by
    have ht := execSteps_completionEvents net t (execStep net s a)
    rw [execSteps] at ht ⊢
    rw [List.foldl_cons, ht, execStep_completionEvents]

theorem execSteps_errorEvents (net : Net) :
    ∀ (sched : List Step) (s : SysState),
      (execSteps net sched s).errorEvents = s.errorEvents
  | [], _ => rfl
  | a :: t, s => by
    have ht := execSteps_errorEvents net t (execStep net s a)
    rw [execSteps] at ht ⊢
    rw [List.foldl_cons, ht, execStep_errorEvents]

theorem execSteps_total_hosts (net : Net) :
    ∀ (sched : List Step) (s : SysState),
      (execSteps net sched s).total_hosts = s.total_hosts
  | [], _ => rfl
  | a :: t, s => by
    have ht := execSteps_total_hosts net t (execStep net s a)
    rw [execSteps] at ht ⊢
    rw [List.foldl_cons, ht, execStep_total_hosts]

/-- Once the running flag is cleared, later scheduled steps change
nothing observable: the queue bookkeeping aside, the state is frozen. -/
theorem execStep_frozen (net : Net) (s : SysState) (a : Step)
    (h : s.is_scanning = false) :
    (execStep net s a).is_scanning = false ∧
    (execStep net s a).partial_results = s.partial_results ∧
    (execStep net s a).devices = s.devices ∧
    (execStep net s a).hosts_scanned = s.hosts_scanned ∧
    (execStep net s a).progressEvents = s.progressEvents := by
  cases a with
  | stop => exact ⟨rfl, rfl, rfl, rfl, rfl⟩
  | run i =>
    cases hri : s.remaining[i]? with
    | none =>
      have hred : execStep net s (.run i) = s := by rw [execStep_run, hri]
      rw [hred]
      exact ⟨h, rfl, rfl, rfl, rfl⟩
    | some ip =>
      have hred : execStep net s (.run i) =
          scan_single_ip net ip { s with remaining := s.remaining.eraseIdx i } := by
        rw [execStep_run, hri]
      rw [hred,
        scan_single_ip_not_scanning net ip { s with remaining := s.remaining.eraseIdx i } h]
      exact ⟨h, rfl, rfl, rfl, rfl⟩

theorem execSteps_frozen (net : Net) :
    ∀ (sched : List Step) (s : SysState), s.is_scanning = false →
      (execSteps net sched s).is_scanning = false ∧
      (execSteps net sched s).partial_results = s.partial_results ∧
      (execSteps net sched s).devices = s.devices ∧
      (execSteps net sched s).hosts_scanned = s.hosts_scanned ∧
      (execSteps net sched s).progressEvents = s.progressEvents
  | [], s, h => ⟨h, rfl, rfl, rfl, rfl⟩
  | a :: t, s, h => by
    have hstep := execStep_frozen net s a h
    have ht := execSteps_frozen net t (execStep net s a) hstep.1
    rw [execSteps] at ht ⊢
    rw [List.foldl_cons]
    exact ⟨ht.1, ht.2.1.trans hstep.2.1, ht.2.2.1.trans hstep.2.2.1,
      ht.2.2.2.1.trans hstep.2.2.2.1, ht.2.2.2.2.trans hstep.2.2.2.2⟩

/-- A schedule containing a stop request leaves the flag cleared. -/
theorem execSteps_stop_mem (net : Net) :
    ∀ (sched : List Step) (s : SysState), Step.stop ∈ sched →
      (execSteps net sched s).is_scanning = false
  | [], _, h => absurd h (List.not_mem_nil _)
  | a :: t, s, h => by
    rw [execSteps, List.foldl_cons]
    by_cases hm : Step.stop ∈ t
    · exact execSteps_stop_mem net t _ hm
    · have ha : a = Step.stop := by
        rcases List.mem_cons.mp h with h1 | h1
        · exact h1.symm
        · exact absurd h1 hm
      subst ha
      exact (execSteps_frozen net t _ rfl).1

/-- A schedule with no stop request leaves the flag set. -/
theorem execSteps_no_stop (net : Net) :
    ∀ (sched : List Step) (s : SysState), Step.stop ∉ sched → s.is_scanning = true →
      (execSteps net sched s).is_scanning = true
  | [], _, _, hs => hs
  | a :: t, s, h, hs => by
    rw [execSteps, List.foldl_cons]
    have hat : a ≠ Step.stop ∧ Step.stop ∉ t := by
      constructor
      · intro heq
        exact h (heq ▸ List.mem_cons_self a t)
      · intro hm
        exact h (List.mem_cons_of_mem a hm)
    have hrun : ∃ i, a = Step.run i := by
      cases a with
      | run i => exact ⟨i, rfl⟩
      | stop => exact absurd rfl hat.1
    rcases hrun with ⟨i, rfl⟩
    apply execSteps_no_stop net t _ hat.2
    rw [execStep_is_scanning_run]
    exact hs

theorem cons_eraseIdx_perm {α : Type} : ∀ (l : List α) (i : Nat) (a : α),
    l[i]? = some a → (a :: l.eraseIdx i).Perm l
  | [], i, a, h => by simp at h
  | b :: t, 0, a, h => by
    simp only [List.getElem?_cons_zero, Option.some_inj] at h
    subst h
    simp [List.eraseIdx]
  | b :: t, i + 1, a, h => by
    simp only [List.getElem?_cons_succ] at h
    have ih := cons_eraseIdx_perm t i a h
    show (a :: (b :: t.eraseIdx i)).Perm (b :: t)
    exact (List.Perm.swap b a (t.eraseIdx i)).trans (ih.cons b)

/-- The per-scan accumulator invariant: the devices found so far carry
pairwise distinct addresses, none of which is still pending, and the
partial-results accumulator is exactly the per-scan device list. -/
def DevInv (s : SysState) : Prop :=
  ((s.devices.map (fun d => d.ip)) ++ s.remaining).Nodup ∧
  s.partial_results = s.devices

theorem stop_scan_devInv (s : SysState) (h : DevInv s) : DevInv (stop_scan s) := h

theorem execStep_devInv (net : Net) (s : SysState) (a : Step) (h : DevInv s) :
    DevInv (execStep net s a) := by
  cases a with
  | stop => exact h
  | run i =>
    cases hri : s.remaining[i]? with
    | none =>
      have hred : execStep net s (.run i) = s := by rw [execStep_run, hri]
      rw [hred]
      exact h
    | some ip =>
      have hred : execStep net s (.run i) =
          scan_single_ip net ip { s with remaining := s.remaining.eraseIdx i } := by
        rw [execStep_run, hri]
      rw [hred]
      have hperm := cons_eraseIdx_perm s.remaining i ip hri
      by_cases hsc : s.is_scanning = true
      · unfold scan_single_ip
        rw [if_neg (by simp [hsc])]
        cases hpd : probeDevice net ip with
        | none =>
          refine ⟨?_, h.2⟩
          exact ((List.Sublist.append_left (List.eraseIdx_sublist _ _) _).nodup h.1)
        | some d =>
          have hdip : d.ip = ip := probeDevice_ip net ip d hpd
          constructor
          · have hmap : ((s.devices ++ [d]).map (fun x => x.ip)) ++ s.remaining.eraseIdx i =
                s.devices.map (fun x => x.ip) ++ (d.ip :: s.remaining.eraseIdx i) := by
              simp [List.map_append]
            show ((s.devices ++ [d]).map (fun x => x.ip) ++ s.remaining.eraseIdx i).Nodup
            rw [hmap, hdip]
            have hp2 : (s.devices.map (fun x => x.ip) ++ (ip :: s.remaining.eraseIdx i)).Perm
                (s.devices.map (fun x => x.ip) ++ s.remaining) := List.Perm.append_left _ hperm
            exact hp2.nodup_iff.mpr h.1
          · show s.partial_results ++ [d] = s.devices ++ [d]
            rw [h.2]
      · have hf : ({ s with remaining := s.remaining.eraseIdx i } : SysState).is_scanning
            = false := by
          simp only [Bool.not_eq_true] at hsc
          exact hsc
        rw [scan_single_ip_not_scanning net ip { s with remaining := s.remaining.eraseIdx i } hf]
        refine ⟨?_, h.2⟩
        exact ((List.Sublist.append_left (List.eraseIdx_sublist _ _) _).nodup h.1)

theorem execSteps_devInv (net : Net) :
    ∀ (sched : List Step) (s : SysState), DevInv s → DevInv (execSteps net sched s)
  | [], _, h => h
  | a :: t, s, h => by
    rw [execSteps, List.foldl_cons]
    exact execSteps_devInv net t _ (execStep_devInv net s a h)

/-- The progress-callback invariant: the scanned counts delivered so far
are non-decreasing, the most recent one is the current counter value,
and every total delivered is the stored total. -/
def ProgInv (s : SysState) : Prop :=
  List.Chain' (· ≤ ·) (s.progressEvents.map Prod.fst) ∧
  (s.progressEvents.map Prod.fst).getLast? = some s.hosts_scanned ∧
  ∀ e ∈ s.progressEvents, e.2 = s.total_hosts

theorem scan_single_ip_progInv (net : Net) (ip : Nat) (s : SysState) (h : ProgInv s) :
    ProgInv (scan_single_ip net ip s) := by
  unfold scan_single_ip
  split
  · exact h
  have key : ∀ ev : List (Nat × Nat), ∀ c t : Nat,
      List.Chain' (· ≤ ·) (ev.map Prod.fst) →
      (ev.map Prod.fst).getLast? = some c →
      (∀ e ∈ ev, e.2 = t) →
      List.Chain' (· ≤ ·) ((ev ++ [(c + 1, t)]).map Prod.fst) ∧
      ((ev ++ [(c + 1, t)]).map Prod.fst).getLast? = some (c + 1) ∧
      ∀ e ∈ ev ++ [(c + 1, t)], e.2 = t := by
    intro ev c t hch hlast hsnd
    refine ⟨?_, ?_, ?_⟩
    · rw [List.map_append]
      refine List.chain'_append.mpr ⟨hch, List.chain'_singleton _, ?_⟩
      intro x hx y hy
      simp only [List.map_cons, List.map_nil, List.head?_cons, Option.mem_def,
        Option.some_inj] at hy
      rw [hlast] at hx
      simp only [Option.mem_def, Option.some_inj] at hx
      omega
    · rw [List.map_append]
      simp
    · intro e he
      rcases List.mem_append.mp he with h1 | h1
      · exact hsnd e h1
      · simp only [List.mem_singleton] at h1
        rw [h1]
  cases hpd : probeDevice net ip with
  | some d =>
    exact key s.progressEvents s.hosts_scanned s.total_hosts h.1 h.2.1 h.2.2
  | none =>
    exact key s.progressEvents s.hosts_scanned s.total_hosts h.1 h.2.1 h.2.2

theorem execStep_progInv (net : Net) (s : SysState) (a : Step) (h : ProgInv s) :
    ProgInv (execStep net s a) := by
  cases a with
  | stop => exact h
  | run i =>
    cases hri : s.remaining[i]? with
    | none =>
      have hred : execStep net s (.run i) = s := by rw [execStep_run, hri]
      rw [hred]
      exact h
    | some ip =>
      have hred : execStep net s (.run i) =
          scan_single_ip net ip { s with remaining := s.remaining.eraseIdx i } := by
        rw [execStep_run, hri]
      rw [hred]
      exact scan_single_ip_progInv net ip _ h

theorem execSteps_progInv (net : Net) :
    ∀ (sched : List Step) (s : SysState), ProgInv s → ProgInv (execSteps net sched s)
  | [], _, h => h
  | a :: t, s, h => by
    rw [execSteps, List.foldl_cons]
    exact execSteps_progInv net t _ (execStep_progInv net s a h)

/-- While no stop request arrives, every completed task moves exactly one
host from the pending queue into the scanned count. -/
theorem execSteps_count (net : Net) :
    ∀ (sched : List Step) (s : SysState), Step.stop ∉ sched → s.is_scanning = true →
      (execSteps net sched s).hosts_scanned + (execSteps net sched s).remaining.length =
        s.hosts_scanned + s.remaining.length
  | [], _, _, _ => rfl
  | a :: t, s, h, hs => by
    have hat : a ≠ Step.stop ∧ Step.stop ∉ t := by
      constructor
      · intro heq
        exact h (heq ▸ List.mem_cons_self a t)
      · intro hm
        exact h (List.mem_cons_of_mem a hm)
    rcases ha : a with i | -
    case stop => exact absurd rfl (ha ▸ hat.1)
    rw [execSteps, List.foldl_cons]
    have hflag : (execStep net s (.run i)).is_scanning = true := by
      rw [execStep_is_scanning_run]
      exact hs
    have hrec := execSteps_count net t (execStep net s (.run i)) hat.2 hflag
    rw [execSteps] at hrec
    rw [hrec]
    cases hri : s.remaining[i]? with
    | none =>
      have hred : execStep net s (.run i) = s := by rw [execStep_run, hri]
      rw [hred]
    | some ip =>
      have hred : execStep net s (.run i) =
          scan_single_ip net ip { s with remaining := s.remaining.eraseIdx i } := by
        rw [execStep_run, hri]
      have hlen : s.remaining.length ≠ 0 := by
        intro h0
        rw [List.getElem?_eq_none (by omega)] at hri
        cases hri
      have hilt : i < s.remaining.length := by
        by_contra hge
        rw [List.getElem?_eq_none (by omega)] at hri
        cases hri
      have herase : (s.remaining.eraseIdx i).length = s.remaining.length - 1 := by
        rw [List.length_eraseIdx]
        simp [hilt]
      rw [hred]
      unfold scan_single_ip
      rw [if_neg (by simp [hs])]
      cases hpd : probeDevice net ip with
      | some d =>
        show s.hosts_scanned + 1 + (s.remaining.eraseIdx i).length =
          s.hosts_scanned + s.remaining.length
        rw [herase]
        omega
      | none =>
        show s.hosts_scanned + 1 + (s.remaining.eraseIdx i).length =
          s.hosts_scanned + s.remaining.length
        rw [herase]
        omega

/-- `scan_network` is a no-op while a scan is running (lines 196-197). -/
theorem scan_network_running (net : Net) (expr : String) (sched : List Step) (s : SysState)
    (h : s.is_scanning = true) : scan_network net expr sched s = s := by
  unfold scan_network
  rw [if_pos h]

/-- Reduction of `scan_network` when the parser raises. -/
theorem scan_network_error (net : Net) (expr : String) (sched : List Step) (s : SysState)
    (e : String) (hs : s.is_scanning = false) (hp : parse_ip_range expr = .error e) :
    scan_network net expr sched s =
      { s with is_scanning := false, partial_results := [], hosts_scanned := 0, devices := []
               errorEvents := s.errorEvents ++ ["Scan failed: " ++ e] } := by
  unfold scan_network
  rw [if_neg (by simp [hs]), hp]

/-- Reduction of `scan_network` when the parser returns a host list. -/
theorem scan_network_ok (net : Net) (expr : String) (sched : List Step) (s : SysState)
    (hosts : List Nat) (hs : s.is_scanning = false) (hp : parse_ip_range expr = .ok hosts) :
    scan_network net expr sched s =
      (if (execSteps net sched
            { s with is_scanning := true, partial_results := [], hosts_scanned := 0
                     devices := [], total_hosts := hosts.length
                     progressEvents := s.progressEvents ++ [(0, hosts.length)]
                     remaining := hosts }).is_scanning then
         { execSteps net sched
            { s with is_scanning := true, partial_results := [], hosts_scanned := 0
                     devices := [], total_hosts := hosts.length
                     progressEvents := s.progressEvents ++ [(0, hosts.length)]
                     remaining := hosts } with
           is_scanning := false
           completionEvents := (execSteps net sched
            { s with is_scanning := true, partial_results := [], hosts_scanned := 0
                     devices := [], total_hosts := hosts.length
                     progressEvents := s.progressEvents ++ [(0, hosts.length)]
                     remaining := hosts }).completionEvents ++
             [sortDevices (execSteps net sched
               { s with is_scanning := true, partial_results := [], hosts_scanned := 0
                        devices := [], total_hosts := hosts.length
                        progressEvents := s.progressEvents ++ [(0, hosts.length)]
                        remaining := hosts }).devices]
         }
       else execSteps net sched
            { s with is_scanning := true, partial_results := [], hosts_scanned := 0
                     devices := [], total_hosts := hosts.length
                     progressEvents := s.progressEvents ++ [(0, hosts.length)]
                     remaining := hosts }) := by
  unfold scan_network
  rw [if_neg (by simp [hs]), hp]

/-- Sorting by numeric IP is strictly increasing whenever the input
carries pairwise distinct addresses. -/
theorem sortDevices_pairwise_lt (l : List Device)
    (h : (l.map (fun d => d.ip)).Nodup) :
    (sortDevices l).Pairwise (fun a b => a.ip < b.ip) := by
  have hs : (sortDevices l).Pairwise devLE := List.sorted_insertionSort devLE l
  have hperm : (sortDevices l).Perm l := List.perm_insertionSort devLE l
  have hnd : ((sortDevices l).map (fun d => d.ip)).Nodup :=
    ((hperm.map (fun d => d.ip)).nodup_iff).mpr h
  have hne : (sortDevices l).Pairwise (fun a b => a.ip ≠ b.ip) := List.pairwise_map.mp hnd
  exact (hs.and hne).imp (fun hab => Nat.lt_of_le_of_ne hab.1 hab.2)

/-! ### Claim C4 — stop_scan is a pure flag clear -/

/-- Claim C4.  `stop_scan` only clears the running flag: every other
field of the scanner state — the partial-results accumulator, the
scanned and total counters, the per-scan device list, the pending queue
and all three callback logs — is unchanged, and the partial results
remain queryable unchanged.  After a stop request anywhere in the
schedule the completion callback never fires, and a stop that arrives
before any worker task completes leaves `get_partial_results` empty (and
again no completion callback). -/
theorem claim_C4 :
    (∀ s : SysState,
      stop_scan s = { s with is_scanning := false } ∧
      (stop_scan s).partial_results = s.partial_results ∧
      (stop_scan s).hosts_scanned = s.hosts_scanned ∧
      (stop_scan s).total_hosts = s.total_hosts ∧
      (stop_scan s).devices = s.devices ∧
      (stop_scan s).remaining = s.remaining ∧
      (stop_scan s).progressEvents = s.progressEvents ∧
      (stop_scan s).completionEvents = s.completionEvents ∧
      (stop_scan s).errorEvents = s.errorEvents ∧
      get_partial_results (stop_scan s) = get_partial_results s) ∧
    (∀ (net : Net) (expr : String) (sched : List Step) (s : SysState),
      s.is_scanning = false → s.completionEvents = [] → Step.stop ∈ sched →
        (scan_network net expr sched s).completionEvents = []) ∧
    (∀ (net : Net) (expr : String) (rest : List Step) (s : SysState),
      s.is_scanning = false → s.completionEvents = [] →
        get_partial_results (scan_network net expr (Step.stop :: rest) s) = [] ∧
        (scan_network net expr (Step.stop :: rest) s).completionEvents = []) := by
  refine ⟨fun s => ⟨rfl, rfl, rfl, rfl, rfl, rfl, rfl, rfl, rfl, rfl⟩, ?_, ?_⟩
  · intro net expr sched s hs hce hmem
    cases hp : parse_ip_range expr with
    | error e =>
      rw [scan_network_error net expr sched s e hs hp]
      exact hce
    | ok hosts =>
      rw [scan_network_ok net expr sched s hosts hs hp]
      have hflag := execSteps_stop_mem net sched
        { s with is_scanning := true, partial_results := [], hosts_scanned := 0
                 devices := [], total_hosts := hosts.length
                 progressEvents := s.progressEvents ++ [(0, hosts.length)]
                 remaining := hosts } hmem
      rw [if_neg (by simp [hflag])]
      rw [execSteps_completionEvents]
      exact hce
  · intro net expr rest s hs hce
    cases hp : parse_ip_range expr with
    | error e =>
      rw [scan_network_error net expr (Step.stop :: rest) s e hs hp]
      exact ⟨rfl, hce⟩
    | ok hosts =>
      rw [scan_network_ok net expr (Step.stop :: rest) s hosts hs hp]
      have hstart : (execStep net
          { s with is_scanning := true, partial_results := [], hosts_scanned := 0
                   devices := [], total_hosts := hosts.length
                   progressEvents := s.progressEvents ++ [(0, hosts.length)]
                   remaining := hosts } Step.stop).is_scanning = false := rfl
      have hfr := execSteps_frozen net rest _ hstart
      have hsteps : execSteps net (Step.stop :: rest)
          { s with is_scanning := true, partial_results := [], hosts_scanned := 0
                   devices := [], total_hosts := hosts.length
                   progressEvents := s.progressEvents ++ [(0, hosts.length)]
                   remaining := hosts } =
          execSteps net rest (execStep net
            { s with is_scanning := true, partial_results := [], hosts_scanned := 0
                     devices := [], total_hosts := hosts.length
                     progressEvents := s.progressEvents ++ [(0, hosts.length)]
                     remaining := hosts } Step.stop) := rfl
      rw [hsteps]
      rw [if_neg (by simp [hfr.1])]
      constructor
      · unfold get_partial_results
        rw [hfr.2.1]
        rfl
      · rw [execSteps_completionEvents]
        exact hce

/-- Claim C4, witness: the quantified parts of `claim_C4` at concrete
inputs — a state with devices and counters to check the frame equations,
and a scan of `10.0.0.1-3` in which the stop request precedes every
worker completion. -/
theorem claim_C4_witness :
    (stop_scan
        { initState with partial_results := [⟨"h", 7, "80"⟩], hosts_scanned := 2
                         total_hosts := 5, is_scanning := true }).partial_results =
      [⟨"h", 7, "80"⟩] ∧
    (initState.is_scanning = false ∧ initState.completionEvents = [] ∧
      get_partial_results
        (scan_network netAllOpen "10.0.0.1-3" (Step.stop :: [Step.run 0, Step.run 0]) initState)
        = [] ∧
      (scan_network netAllOpen "10.0.0.1-3" (Step.stop :: [Step.run 0, Step.run 0])
        initState).completionEvents = []) :=
  ⟨(claim_C4.1 _).2.1, rfl, rfl,
    (claim_C4.2.2 netAllOpen "10.0.0.1-3" [Step.run 0, Step.run 0] initState rfl rfl).1,
    (claim_C4.2.2 netAllOpen "10.0.0.1-3" [Step.run 0, Step.run 0] initState rfl rfl).2⟩

/-! ### Claim C5 — delivered device lists are sorted by numeric IP -/

/-- Claim C5.  For a scan over a host list with pairwise distinct
addresses (which is what the parser produces), every device list
delivered at the public interface is strictly sorted by numeric IP:
`get_partial_results` after any interleaving of worker completions and
stop requests, and every list handed to a completion callback.  Strict
pairwise ordering is exactly the claim's "A precedes B iff A's numeric
IP is less than B's". -/
theorem claim_C5 (net : Net) (expr : String) (sched : List Step) (s : SysState)
    (hosts : List Nat) (hs : s.is_scanning = false) (hce : s.completionEvents = [])
    (hp : parse_ip_range expr = .ok hosts) (hnd : hosts.Nodup) :
    List.Pairwise (fun a b => a.ip < b.ip)
      (get_partial_results (scan_network net expr sched s)) ∧
    ∀ l ∈ (scan_network net expr sched s).completionEvents,
      List.Pairwise (fun a b => a.ip < b.ip) l := by
  rw [scan_network_ok net expr sched s hosts hs hp]
  have hinv : DevInv
      { s with is_scanning := true, partial_results := [], hosts_scanned := 0
               devices := [], total_hosts := hosts.length
               progressEvents := s.progressEvents ++ [(0, hosts.length)]
               remaining := hosts } := by
    constructor
    · simpa using hnd
    · rfl
  have hinv2 := execSteps_devInv net sched _ hinv
  have hce2 : (execSteps net sched
      { s with is_scanning := true, partial_results := [], hosts_scanned := 0
               devices := [], total_hosts := hosts.length
               progressEvents := s.progressEvents ++ [(0, hosts.length)]
               remaining := hosts }).completionEvents = [] := by
    rw [execSteps_completionEvents]
    exact hce
  have hdevnd : ((execSteps net sched
      { s with is_scanning := true, partial_results := [], hosts_scanned := 0
               devices := [], total_hosts := hosts.length
               progressEvents := s.progressEvents ++ [(0, hosts.length)]
               remaining := hosts }).devices.map (fun d => d.ip)).Nodup :=
    hinv2.1.of_append_left
  have hsorted := sortDevices_pairwise_lt _ hdevnd
  constructor
  · split
    · unfold get_partial_results
      show (sortDevices (execSteps net sched _).partial_results).Pairwise _
      rw [hinv2.2]
      exact hsorted
    · unfold get_partial_results
      rw [hinv2.2]
      exact hsorted
  · split
    · intro l hl
      simp only [hce2, List.nil_append, List.mem_singleton] at hl
      rw [hl]
      exact hsorted
    · intro l hl
      rw [hce2] at hl
      cases hl

/-- Claim C5, witness: `claim_C5` at a concrete two-host scan against
the all-open environment, with the workers completing in reverse
order. -/
theorem claim_C5_witness :
    (initState.is_scanning = false ∧ initState.completionEvents = [] ∧
      parse_ip_range "10.0.0.1-2" = .ok [167772161, 167772162] ∧
      ([167772161, 167772162] : List Nat).Nodup) ∧
    List.Pairwise (fun a b => a.ip < b.ip)
      (get_partial_results
        (scan_network netAllOpen "10.0.0.1-2" [Step.run 1, Step.run 0] initState)) :=
  ⟨⟨rfl, rfl, by decide, by decide⟩,
    (claim_C5 netAllOpen "10.0.0.1-2" [Step.run 1, Step.run 0] initState
      [167772161, 167772162] rfl rfl (by decide) (by decide)).1⟩

/-! ### Claim C6 — progress is monotone and reaches the total -/

/-- Claim C6.  Across a single scan the scanned counts passed to
successive progress callbacks are non-decreasing, and if the scan runs
to completion (no stop request, pending queue drained) the counter
equals the host-list length — every worker task incremented it exactly
once, alive host or not — and the final progress callback is
`(total, total)`. -/
theorem claim_C6 (net : Net) (expr : String) (sched : List Step) (s : SysState)
    (hosts : List Nat) (hs : s.is_scanning = false) (hpe : s.progressEvents = [])
    (hp : parse_ip_range expr = .ok hosts) :
    List.Chain' (· ≤ ·)
      ((scan_network net expr sched s).progressEvents.map Prod.fst) ∧
    (Step.stop ∉ sched → (scan_network net expr sched s).remaining = [] →
      (scan_network net expr sched s).hosts_scanned = hosts.length ∧
      (scan_network net expr sched s).progressEvents.getLast? =
        some (hosts.length, hosts.length)) := by
  rw [scan_network_ok net expr sched s hosts hs hp]
  have hinv : ProgInv
      { s with is_scanning := true, partial_results := [], hosts_scanned := 0
               devices := [], total_hosts := hosts.length
               progressEvents := s.progressEvents ++ [(0, hosts.length)]
               remaining := hosts } := by
    refine ⟨?_, ?_, ?_⟩
    · rw [hpe]
      simp
    · rw [hpe]
      simp
    · intro e he
      rw [hpe] at he
      simp only [List.nil_append, List.mem_singleton] at he
      rw [he]
  have hinv2 := execSteps_progInv net sched _ hinv
  have htot : (execSteps net sched
      { s with is_scanning := true, partial_results := [], hosts_scanned := 0
               devices := [], total_hosts := hosts.length
               progressEvents := s.progressEvents ++ [(0, hosts.length)]
               remaining := hosts }).total_hosts = hosts.length := by
    rw [execSteps_total_hosts]
  constructor
  · split
    · exact hinv2.1
    · exact hinv2.1
  · intro hnostop
    have hcount := execSteps_count net sched
      { s with is_scanning := true, partial_results := [], hosts_scanned := 0
               devices := [], total_hosts := hosts.length
               progressEvents := s.progressEvents ++ [(0, hosts.length)]
               remaining := hosts } hnostop rfl
    have hlast := hinv2.2.1
    have hsnd := hinv2.2.2
    set E := execSteps net sched
      { s with is_scanning := true, partial_results := [], hosts_scanned := 0
               devices := [], total_hosts := hosts.length
               progressEvents := s.progressEvents ++ [(0, hosts.length)]
               remaining := hosts } with hE
    split
    all_goals {
      intro hrem
      have hrem2 : E.remaining = [] := hrem
      have hn : E.hosts_scanned = hosts.length := by
        rw [hrem2] at hcount
        simpa using hcount
      rw [List.getLast?_map] at hlast
      refine ⟨hn, ?_⟩
      show E.progressEvents.getLast? = some (hosts.length, hosts.length)
      cases hle : E.progressEvents.getLast? with
      | none =>
        rw [hle] at hlast
        cases hlast
      | some e =>
        rw [hle] at hlast
        simp only [Option.map_some', Option.some_inj] at hlast
        have he2 : e.2 = hosts.length := by
          rw [← htot]
          exact hsnd e (List.mem_of_mem_getLast? (by rw [hle]; rfl))
        rcases e with ⟨e1, e2⟩
        have he1 : e1 = hosts.length := by
          rw [← hn]
          exact hlast
        have he2b : e2 = hosts.length := he2
        rw [he1, he2b]
    }

/-- Claim C6, witness: `claim_C6` at a concrete three-host scan of
`10.0.0.1-3` run to completion against the dark environment. -/
theorem claim_C6_witness :
    (initState.is_scanning = false ∧ initState.progressEvents = [] ∧
      parse_ip_range "10.0.0.1-3" = .ok [167772161, 167772162, 167772163]) ∧
    List.Chain' (· ≤ ·)
      ((scan_network netDark "10.0.0.1-3" [Step.run 0, Step.run 0, Step.run 0]
        initState).progressEvents.map Prod.fst) :=
  ⟨⟨rfl, rfl, by decide⟩,
    (claim_C6 netDark "10.0.0.1-3" [Step.run 0, Step.run 0, Step.run 0] initState
      [167772161, 167772162, 167772163] rfl rfl (by decide)).1⟩

/-! ### Claim C7 — failure during a scan -/

/-- Claim C7.  When the range parser raises inside `do_scan` — the only
fallible operation of the orchestration in this embedding, matching the
source where every per-probe and per-future exception is swallowed
locally — the error callback is invoked exactly once with the
descriptive, non-empty message `"Scan failed: " + str(e)`, the running
flag is cleared, the completion callback never fires and no progress
callback is dispatched (no probe worker is spawned); the partial-results
accumulator holds exactly the results collected by this scan before the
failure, namely none, since the parse happens before any worker
starts. -/
theorem claim_C7 (net : Net) (expr : String) (sched : List Step) (s : SysState)
    (e : String) (hs : s.is_scanning = false) (hp : parse_ip_range expr = .error e) :
    (scan_network net expr sched s).errorEvents =
      s.errorEvents ++ ["Scan failed: " ++ e] ∧
    ("Scan failed: " ++ e) ≠ "" ∧
    (scan_network net expr sched s).is_scanning = false ∧
    (scan_network net expr sched s).completionEvents = s.completionEvents ∧
    (scan_network net expr sched s).progressEvents = s.progressEvents ∧
    (scan_network net expr sched s).partial_results = [] ∧
    (scan_network net expr sched s).devices = [] ∧
    (scan_network net expr sched s).hosts_scanned = 0 := by
  rw [scan_network_error net expr sched s e hs hp]
  refine ⟨rfl, ?_, rfl, rfl, rfl, rfl, rfl, rfl⟩
  intro heq
  have h1 := congrArg String.data heq
  rw [stringDataAppend] at h1
  have h0 : ("Scan failed: " : String).data = [] := (List.append_eq_nil.mp h1).1
  exact absurd h0 (by decide)

/-- Claim C7, witness: `claim_C7` at the unparsable expression `"zz"`
from a fresh scanner. -/
theorem claim_C7_witness :
    (initState.is_scanning = false ∧
      parse_ip_range "zz" = .error "does not appear to be an IPv4 address") ∧
    (scan_network netDark "zz" [] initState).errorEvents =
      initState.errorEvents ++ ["Scan failed: " ++ "does not appear to be an IPv4 address"] :=
  ⟨⟨rfl, by decide⟩,
    (claim_C7 netDark "zz" [] initState "does not appear to be an IPv4 address" rfl
      (by decide)).1⟩

/-! ### Claim C8 — the probe never raises and keeps the fixed port order -/

/-- Claim C8.  The per-host probe absorbs every failure of its network
primitives: a port probe whose connect raises degrades to "not open", an
environment in which every primitive raises yields "not alive" (no
device is recorded, and the probe still returns rather than raising —
totality of the model), a reverse-DNS failure degrades the hostname to
the address's literal string, and a probing worker always performs its
progress accounting, so one host's failures never abort the scan.  The
recorded open ports are the accepting members of the fixed probe list in
that list's order — a sublist of `common_ports = [22, 80, 443, 3389, 53,
21, 23, 8080, 8443, 8006, 5000]`, which is not numerically sorted, as
the all-accepting environment exhibits. -/
theorem claim_C8 (net : Net) (ip : Nat) :
    (openPortsOf net ip).Sublist common_ports ∧
    (∀ d, net.gethostbyaddr ip = none → probeDevice net ip = some d →
      d.hostname = ipString ip) ∧
    (∀ p, is_port_open netDark ip p = false) ∧
    probeDevice netDark ip = none ∧
    (∀ s : SysState, s.is_scanning = true →
      (scan_single_ip net ip s).hosts_scanned = s.hosts_scanned + 1) ∧
    openPortsOf netAllOpen ip = common_ports ∧
    ¬ List.Pairwise (· ≤ ·) common_ports := by
  refine ⟨List.filter_sublist _, ?_, fun p => rfl, ?_, ?_, ?_, by decide⟩
  · intro d hdns hpd
    simp only [probeDevice, hdns] at hpd
    split at hpd
    · cases hpd
      rfl
    · cases hpd
  · simp [probeDevice, openPortsOf, is_port_open, netDark, fallbackAlive]
  · intro s hsc
    unfold scan_single_ip
    rw [if_neg (by simp [hsc])]
    cases probeDevice net ip <;> rfl
  · unfold openPortsOf
    rw [List.filter_eq_self.mpr]
    intro p hp
    rfl

/-- Claim C8, witness: the degradation conjuncts of `claim_C8` at a
concrete address — the dark environment records no device, and the
worker's counter still advances on a live flag. -/
theorem claim_C8_witness :
    (netDark.gethostbyaddr 167772161 = none ∧ probeDevice netDark 167772161 = none) ∧
    (({ initState with is_scanning := true } : SysState).is_scanning = true ∧
      (scan_single_ip netDark 167772161
        { initState with is_scanning := true }).hosts_scanned =
        ({ initState with is_scanning := true } : SysState).hosts_scanned + 1) :=
  ⟨⟨rfl, (claim_C8 netDark 167772161).2.2.2.1⟩,
    ⟨rfl, (claim_C8 netDark 167772161).2.2.2.2.1 { initState with is_scanning := true } rfl⟩⟩

/-! ### Claim C9 — start_scan while running is a no-op -/

/-- Claim C9.  Calling `scan_network` while a scan is already running
returns the state entirely unchanged: no thread is started, no
per-scan field is reset, and no callback log grows. -/
theorem claim_C9 (net : Net) (expr : String) (sched : List Step) (s : SysState)
    (h : s.is_scanning = true) : scan_network net expr sched s = s :=
  scan_network_running net expr sched s h

/-- Claim C9, witness: a second `scan_network` call on a running state
is the identity. -/
theorem claim_C9_witness :
    ({ initState with is_scanning := true } : SysState).is_scanning = true ∧
    scan_network netDark "10.0.0.0/24" [Step.run 0] { initState with is_scanning := true } =
      { initState with is_scanning := true } :=
  ⟨rfl, claim_C9 netDark "10.0.0.0/24" [Step.run 0] { initState with is_scanning := true } rfl⟩

/-! ### Claim C10 — the local /24 helper -/

/-- `ip - ip % 2^8`: the network address of the /24 containing `ip`,
which is what `IPv4Network(local_ip + "/24", strict=False)` computes. -/
def mask24 (ip : Nat) : Nat := ip - ip % 2 ^ 8

/-- `NetworkScanner.get_local_ip_range` (scanner.py lines 207-213), with
the address that `socket.gethostbyname(socket.gethostname())` resolves
to supplied as the oracle input: build the /24 network around it with
host bits masked (`strict=False`) and return its string form
`str(network_address) + "/24"`. -/
def get_local_ip_range (local_ip : Nat) : String :=
  ipString (mask24 local_ip) ++ "/24"

/-- Claim C10.  The local-network helper returns the string form of the
/24 IPv4 network containing the caller's resolved address: the network
address is /24-aligned, is at most the resolved address, and the
resolved address lies within the 256-address block; parsing the returned
expression back (as the scan entry points do) recovers exactly that
network, as checked on the concrete resolved address 192.168.1.10. -/
theorem claim_C10 (local_ip : Nat) :
    get_local_ip_range local_ip = ipString (mask24 local_ip) ++ "/24" ∧
    mask24 local_ip % 2 ^ 8 = 0 ∧
    mask24 local_ip ≤ local_ip ∧
    local_ip < mask24 local_ip + 2 ^ 8 ∧
    parseNetwork (get_local_ip_range 3232235786) = some (3232235776, 24) ∧
    mask24 3232235786 = 3232235776 := by
  refine ⟨rfl, ?_, ?_, ?_, by decide, by decide⟩
  · unfold mask24
    omega
  · unfold mask24
    omega
  · unfold mask24
    have := Nat.mod_lt local_ip (show 0 < 2 ^ 8 by norm_num)
    omega

/-- Claim C10, witness: `claim_C10` needs no hypothesis discharge; this
instantiates it at the resolved address 10.0.0.57. -/
theorem claim_C10_witness :
    mask24 167772217 ≤ 167772217 ∧ 167772217 < mask24 167772217 + 2 ^ 8 :=
  ⟨(claim_C10 167772217).2.2.1, (claim_C10 167772217).2.2.2.1⟩
